import Mathlib

/-!
Verification development for the point-in-time backtesting engine of the
ai_agents repository (ai_financial_advisor).  The Python source is shallowly
embedded: prices and cash are modelled as exact rationals (the Python code uses
floats; all claims are about the algorithms, not about rounding), dates as
integers counting days, share counts as integers, and fallible operations as
`Except String`.  Each embedded definition mirrors one function of the source:

* `getDataForDate`          — StrategyBacktester.get_data_for_date
* `executeTrade`            — StrategyBacktester.execute_trade
* `run_backtest`            — StrategyBacktester.run_backtest (weekly loop and
                              final performance figures)
* `run_strategy_analysis`   — result parsing of StrategyBacktester.run_strategy_analysis
* `generate_rule_based_signal` — src/analysis/signals.py
* `compute_risk_metrics`    — src/analysis/risk.py (returns, outlier filter,
                              volatility; volatility is carried as its square so
                              that everything stays inside ℚ — the annualized
                              volatility of the code is zero iff its square is)
* `ema`, `macdLine`, `macdSignalLine`, `bearishMACDCrossEvent`
                            — src/analysis/indicators.py
* `read_prices_process`     — date processing of src/utils/data_utils.py
-/

deriving instance DecidableEq for Except

namespace AIFA

/-- One OHLCV bar, reduced to the fields the verified claims inspect:
its date (days) and closing price. -/
structure Bar where
  date : ℤ
  close : ℚ
deriving DecidableEq, Repr

/-- Portfolio state of `StrategyBacktester`: `cash` (float in the source,
modelled as ℚ), a whole number of `shares`, and the `total_value` field the
source recomputes after each trade. -/
structure Portfolio where
  cash : ℚ
  shares : ℤ
  totalValue : ℚ
deriving DecidableEq, Repr

/-- Embedding of `StrategyBacktester.get_data_for_date` (backtest_strategy.py,
lines 71-105): keep only bars strictly before `targetDate`, fail when fewer
than 50 remain, otherwise return the trailing `periodDays` bars
(`DataFrame.tail`).  The source default for `periodDays` is 180. -/
def getDataForDate (df : List Bar) (targetDate : ℤ) (periodDays : ℕ) :
    Except String (List Bar) :=
  let available := df.filter (fun b => b.date < targetDate)
  if available.length < 50 then
    Except.error "Insufficient data"
  else if periodDays < available.length then
    Except.ok (available.drop (available.length - periodDays))
  else
    Except.ok available

/-- Embedding of `StrategyBacktester.execute_trade` (backtest_strategy.py,
lines 182-222).  BUY: only with positive cash, buys `int(cash / price)` shares
when that is positive (for nonnegative cash Python `int` truncation is the
floor; for a negative quotient both truncation and floor fail the `> 0` guard,
so the floor is behaviourally identical).  SELL: only with positive shares,
sells the whole position.  Any other action changes nothing.  `total_value`
is recomputed from the given price after every call. -/
def executeTrade (p : Portfolio) (action : String) (price : ℚ) : Portfolio :=
  let p1 :=
    if action = "BUY" ∧ 0 < p.cash then
      let sharesToBuy : ℤ := ⌊p.cash / price⌋
      if 0 < sharesToBuy then
        { p with cash := p.cash - sharesToBuy * price, shares := p.shares + sharesToBuy }
      else p
    else if action = "SELL" ∧ 0 < p.shares then
      { p with cash := p.cash + p.shares * price, shares := 0 }
    else p
  { p1 with totalValue := p1.cash + (p1.shares : ℚ) * price }

/-- A sequence of `execute_trade` calls, each given by an action string and a
price, applied in order. -/
def applyTrades (p : Portfolio) (ts : List (String × ℚ)) : Portfolio :=
  ts.foldl (fun q t => executeTrade q t.1 t.2) p

/-- The latest indicator values that `compute_all_indicators` returns and that
`generate_rule_based_signal` consumes (src/analysis/signals.py, lines 18-52). -/
structure IndicatorSnapshot where
  close : ℚ
  ema20 : ℚ
  ema50 : ℚ
  macd : ℚ
  macdSignal : ℚ
  rsi : ℚ
  bbLower : ℚ
  bbMiddle : ℚ
  bbUpper : ℚ
deriving DecidableEq, Repr

/-- The additive score of `generate_rule_based_signal`
(src/analysis/signals.py, lines 19-52): EMA trend ±1, MACD momentum ±1,
RSI oversold +0.5 / overbought −0.5, close below lower band +0.5, close above
upper band −0.5. -/
def ruleScore (ind : IndicatorSnapshot) : ℚ :=
  (if ind.ema50 < ind.ema20 then 1 else -1)
    + (if ind.macdSignal < ind.macd then 1 else -1)
    + (if ind.rsi < 30 then 1 / 2 else if 70 < ind.rsi then -(1 / 2) else 0)
    + (if ind.close < ind.bbLower then 1 / 2 else 0)
    + (if ind.bbUpper < ind.close then -(1 / 2) else 0)

/-- The decision thresholds of `generate_rule_based_signal`
(src/analysis/signals.py, lines 54-59): signal starts as HOLD, becomes BUY for
score ≥ 1.5 and SELL for score ≤ −1.5. -/
def signalOfScore (score : ℚ) : String :=
  if 3 / 2 ≤ score then "BUY" else if score ≤ -(3 / 2) then "SELL" else "HOLD"

/-- Embedding of `generate_rule_based_signal` (src/analysis/signals.py): the
signal together with its score, computed from the indicator snapshot. -/
def generate_rule_based_signal (ind : IndicatorSnapshot) : String × ℚ :=
  (signalOfScore (ruleScore ind), ruleScore ind)

/-- Simple returns of a close-price series: `Series.pct_change().dropna()`
(src/analysis/risk.py, line 43).  The model assumes finite data — over ℚ a
NaN/inf return cannot arise, which matches the source on positive price
series, the domain all risk claims quantify over. -/
def pctChange (closes : List ℚ) : List ℚ :=
  (closes.zip closes.tail).map (fun pc => (pc.2 - pc.1) / pc.1)

/-- Arithmetic mean of a list of rationals. -/
def listMean (l : List ℚ) : ℚ := l.sum / (l.length : ℚ)

/-- Sample variance with one delta degree of freedom, the square of
`Series.std()` used in src/analysis/risk.py line 70.  For a single
observation the quotient degenerates to 0, which lands in the same
zero-volatility fallback branch the source reserves for a NaN deviation. -/
def sampleVariance (l : List ℚ) : ℚ :=
  ((l.map (fun x => (x - listMean l) ^ 2)).sum) / ((l.length : ℚ) - 1)

/-- The part of the result of `compute_risk_metrics` that the verified claims
inspect: the returns that survived filtering (the series volatility and VaR
are computed from), the square of the annualized volatility, and `n_days`. -/
structure RiskOut where
  rets : List ℚ
  volAnnualizedSq : ℚ
  nDays : ℕ
deriving DecidableEq, Repr

/-- Embedding of `compute_risk_metrics` (src/analysis/risk.py).  Validation:
at least 2 close prices, at least 2 returns.  Outlier filter (lines 60-66):
when some return exceeds 10 in absolute value, keep only returns with
absolute value ≤ 10, failing if none remain.  Volatility (lines 68-76):
zero sample deviation reports annualized volatility 0, otherwise the daily
deviation times √252 — carried here as its square `dailyVar * 252` so the
arithmetic stays rational; the annualized volatility of the source is zero
iff `volAnnualizedSq` is. -/
def compute_risk_metrics (closes : List ℚ) : Except String RiskOut :=
  if closes.length < 2 then
    Except.error "Need at least 2 price observations for risk metrics"
  else
    let rets := pctChange closes
    if rets.length < 2 then
      Except.error "Need at least 2 return observations"
    else
      let retsKept := if rets.any (fun r => 10 < |r|) then rets.filter (fun r => |r| ≤ 10) else rets
      if retsKept = [] then
        Except.error "No valid returns after filtering extreme values"
      else
        let dailyVar := sampleVariance retsKept
        let volAnnSq := if dailyVar = 0 then 0 else dailyVar * 252
        Except.ok { rets := retsKept, volAnnualizedSq := volAnnSq, nDays := retsKept.length }

/-- The recurrence of `Series.ewm(span, adjust=False).mean()` after the seed
value: each output is `a * x + (1 - a) * previous`. -/
def ewmFrom (a y : ℚ) : List ℚ → List ℚ
  | [] => []
  | v :: vs => (a * v + (1 - a) * y) :: ewmFrom a (a * v + (1 - a) * y) vs

/-- Exponential moving average with smoothing factor `a`, seeded by the first
value (`adjust=False`), as in `ema` of src/analysis/indicators.py. -/
def ema (a : ℚ) : List ℚ → List ℚ
  | [] => []
  | x :: rest => x :: ewmFrom a x rest

/-- The source `ema(series, span)` uses pandas `ewm(span=span)`, whose
smoothing factor is 2/(span+1). -/
def emaSpan (span : ℕ) (closes : List ℚ) : List ℚ :=
  ema (2 / ((span : ℚ) + 1)) closes

/-- MACD line: EMA(12) − EMA(26) of the closes (src/analysis/indicators.py,
lines 25-31). -/
def macdLine (closes : List ℚ) : List ℚ :=
  List.zipWith (fun x y => x - y) (emaSpan 12 closes) (emaSpan 26 closes)

/-- MACD signal line: EMA(9) of the MACD line. -/
def macdSignalLine (closes : List ℚ) : List ℚ :=
  emaSpan 9 (macdLine closes)

/-- Last element of a rational list, 0 when empty (`iloc[-1]` of a series
column; the claims only apply it to nonempty data). -/
def lastD (l : List ℚ) : ℚ := l.getLastD 0

/-- Second-to-last element, 0 when shorter than 2 (`iloc[-2]`). -/
def penultD (l : List ℚ) : ℚ := lastD l.dropLast

/-- The bearish MACD cross test of `compute_all_indicators`
(src/analysis/indicators.py, line 78), exactly as written in the source:
`prev['MACD'] > prev['MACD_SIG'] and latest['MACD'] < prev['MACD_SIG']` —
note that the right-hand comparison uses the previous bar's signal value. -/
def bearishMACDCrossEvent (closes : List ℚ) : Bool :=
  decide (penultD (macdSignalLine closes) < penultD (macdLine closes)
    ∧ lastD (macdLine closes) < penultD (macdSignalLine closes))

/-- The shapes the crew result content of `run_strategy_analysis`
(backtest_strategy.py, lines 133-166) can take, as the source's branches
distinguish them:
* `strJson a c` — a string that `json.loads` parses to a dict, with its
  optional `action` and `confidence` entries;
* `strJsonNonDict` — a string parsing to a JSON value that is not a dict;
* `strText hasBuy hasSell` — a string that is not JSON; only whether the
  upper-cased text contains BUY (checked first) or SELL matters;
* `dictContent a c` — the content already is a dict;
* `otherObj hasBuy hasSell` — neither string nor dict; the source falls back
  to keyword extraction from its string representation. -/
inductive CrewContent where
  | strJson (action : Option String) (confidence : Option ℚ)
  | strJsonNonDict
  | strText (hasBuy hasSell : Bool)
  | dictContent (action : Option String) (confidence : Option ℚ)
  | otherObj (hasBuy hasSell : Bool)
deriving DecidableEq, Repr

/-- What `run_strategy_analysis` hands to the weekly loop: a dict with
optional `action` and `confidence` keys, or a non-dict value. -/
inductive ParsedRec where
  | dict (action : Option String) (confidence : Option ℚ)
  | nonDict
deriving DecidableEq, Repr

/-- Keyword fallback of `run_strategy_analysis` (lines 148-155 and 159-166):
BUY if the text mentions BUY, else SELL if it mentions SELL, else HOLD —
always with confidence 0.5. -/
def keywordRec (hasBuy hasSell : Bool) : ParsedRec :=
  ParsedRec.dict (some (if hasBuy then "BUY" else if hasSell then "SELL" else "HOLD"))
    (some (1 / 2))

/-- Embedding of the result handling of `run_strategy_analysis`
(backtest_strategy.py, lines 133-180).  A failing crew call (the outer
`except`, line 178-180) yields the dict `{action: HOLD, confidence: 0.0}`;
parsed JSON dicts and plain dicts pass through unchanged; non-JSON text and
non-dict objects go through keyword extraction with confidence 0.5; a JSON
value that is not a dict passes through as-is.  No branch re-raises. -/
def run_strategy_analysis (crewResult : Except String CrewContent) : ParsedRec :=
  match crewResult with
  | Except.error _ => ParsedRec.dict (some "HOLD") (some 0)
  | Except.ok content =>
    match content with
    | CrewContent.strJson a c => ParsedRec.dict a c
    | CrewContent.strJsonNonDict => ParsedRec.nonDict
    | CrewContent.strText b s => keywordRec b s
    | CrewContent.dictContent a c => ParsedRec.dict a c
    | CrewContent.otherObj b s => keywordRec b s

/-- The defensive extraction of the weekly loop (backtest_strategy.py, lines
286-293): `rec.get('action', 'HOLD')` and `rec.get('confidence', 0.0)` for a
dict, and the `HOLD`/0.0 substitution for anything else. -/
def extract_action_confidence (r : ParsedRec) : String × ℚ :=
  match r with
  | ParsedRec.dict a c => (a.getD "HOLD", c.getD 0)
  | ParsedRec.nonDict => ("HOLD", 0)

/-- The weekly loop of `run_backtest` (backtest_strategy.py, lines 266-313):
while the current date is at most the end date and fewer than `weeks`
iterations have run, find the bars dated at most the current date; when none
exist skip the week, otherwise execute the advised trade at the close of the
latest such bar; then advance one week (7 days).  The advisor abstracts
`run_strategy_analysis` followed by the action/confidence extraction; it is
called on the simulated date. -/
def backtestLoop (priceData : List Bar) (advisor : ℤ → String × ℚ) (endDate : ℤ) :
    ℕ → ℤ → Portfolio → Portfolio
  | 0, _, p => p
  | fuel + 1, current, p =>
    if current ≤ endDate then
      match (priceData.filter (fun b => b.date ≤ current)).getLast? with
      | none => backtestLoop priceData advisor endDate fuel (current + 7) p
      | some bar =>
        backtestLoop priceData advisor endDate fuel (current + 7)
          (executeTrade p (advisor current).1 bar.close)
    else p

/-- The price data `run_backtest` loads for the whole run
(backtest_strategy.py, lines 232-264): the cached series filtered to the
fetch window, which starts 26 weeks (182 days) before the simulated window
`[endDate − 7·weeks, endDate]` to give the first simulated date enough
trailing history. -/
def fetchedWindow (allBars : List Bar) (endDate : ℤ) (weeks : ℕ) : List Bar :=
  allBars.filter (fun b => endDate - 7 * (weeks : ℤ) - 182 ≤ b.date ∧ b.date ≤ endDate)

/-- The final figures `run_backtest` reports (backtest_strategy.py,
lines 315-336). -/
structure BacktestResults where
  finalPortfolioValue : ℚ
  totalReturnPct : ℚ
  buyHoldValue : ℚ
  buyHoldReturnPct : ℚ
  strategyVsBuyHold : ℚ
  portfolio : Portfolio
deriving DecidableEq, Repr

/-- Embedding of `StrategyBacktester.run_backtest` (backtest_strategy.py,
lines 224-338): run the weekly loop over the fetched window starting from
`endDate − 7·weeks` with the initial all-cash portfolio, then compute the
final metrics of lines 315-332: the final price is the last close of the
fetched price data, the total return the percentage gain of the final
portfolio value, and the buy-and-hold benchmark an all-in purchase of
`initial_capital / first close of the fetched price data` shares held to the
final price; `strategy_vs_buy_hold` is their difference. -/
def run_backtest (allBars : List Bar) (endDate : ℤ) (weeks : ℕ) (initialCapital : ℚ)
    (advisor : ℤ → String × ℚ) : BacktestResults :=
  let priceData := fetchedWindow allBars endDate weeks
  let p0 : Portfolio := { cash := initialCapital, shares := 0, totalValue := initialCapital }
  let pEnd := backtestLoop priceData advisor endDate weeks (endDate - 7 * (weeks : ℤ)) p0
  let finalPrice := lastD (priceData.map Bar.close)
  let finalValue := pEnd.cash + (pEnd.shares : ℚ) * finalPrice
  let totalReturn := (finalValue - initialCapital) / initialCapital * 100
  let initialShares := initialCapital / (priceData.map Bar.close).headD 0
  let buyHoldValue := initialShares * finalPrice
  let buyHoldReturn := (buyHoldValue - initialCapital) / initialCapital * 100
  { finalPortfolioValue := finalValue
    totalReturnPct := totalReturn
    buyHoldValue := buyHoldValue
    buyHoldReturnPct := buyHoldReturn
    strategyVsBuyHold := totalReturn - buyHoldReturn
    portfolio := pEnd }

/-- Modelled from the spec words of the claim under test: the buy-and-hold
return of an all-in purchase at the first available close of the *simulated*
window `[endDate − 7·weeks, endDate]`, held to its last available close.
This definition exists only to be compared against the benchmark the code
actually computes in `run_backtest`. -/
def specSimWindowBuyHoldReturnPct (allBars : List Bar) (endDate : ℤ) (weeks : ℕ)
    (initialCapital : ℚ) : ℚ :=
  let simBars := allBars.filter (fun b => endDate - 7 * (weeks : ℤ) ≤ b.date ∧ b.date ≤ endDate)
  let firstClose := (simBars.map Bar.close).headD 0
  let finalPrice := lastD (simBars.map Bar.close)
  (initialCapital / firstClose * finalPrice - initialCapital) / initialCapital * 100

/-- One raw CSV row as it reaches the date processing of `read_prices`
(src/utils/data_utils.py, lines 73-88): the result of
`to_datetime(..., errors='coerce')` on its date cell — `none` is a NaT —
and its payload, reduced to the close price. -/
structure RawRow where
  date : Option ℤ
  close : ℚ
deriving DecidableEq, Repr

/-- Embedding of the date processing and validation of `read_prices` together
with `ensure_df` (src/utils/data_utils.py, lines 63-88 and 111-132), past the
file-system retry loop: fail on an empty table, drop rows with unparsable
dates, sort ascending by date (stably, as pandas `sort_index` does), fail when
no row with a valid date remains, and fail when a required OHLCV column is
missing; otherwise return all surviving rows.  The rows that survive the
`dropna` on dates: -/
def validRows (rows : List RawRow) : List (ℤ × ℚ) :=
  rows.filterMap (fun r => r.date.map (fun d => (d, r.close)))

/-- The stable ascending sort by date that pandas `sort_index` performs. -/
def sortByDate (l : List (ℤ × ℚ)) : List (ℤ × ℚ) :=
  l.insertionSort (fun x y => x.1 ≤ y.1)

/-- The full date-processing pipeline of `read_prices` and `ensure_df`. -/
def read_prices_process (rows : List RawRow) (hasRequiredCols : Bool) :
    Except String (List (ℤ × ℚ)) :=
  if rows = [] then
    Except.error "CSV file contains no data"
  else
    let sorted := sortByDate (validRows rows)
    if sorted = [] then
      Except.error "No valid dates found in CSV"
    else if hasRequiredCols then
      Except.ok sorted
    else
      Except.error "Missing column"

/-- C1: every bar of a successful `get_data_for_date` slice is dated strictly
before the target date (no look-ahead), and the call fails exactly when fewer
than 50 cached bars are dated before the target date. -/
theorem getDataForDate_point_in_time (df : List Bar) (d : ℤ) (periodDays : ℕ) :
    (∀ out, getDataForDate df d periodDays = Except.ok out → ∀ b ∈ out, b.date < d)
    ∧ ((∃ e, getDataForDate df d periodDays = Except.error e)
        ↔ (df.filter (fun b => b.date < d)).length < 50) := by
  constructor
  · intro out hout b hb
    have hmem : b ∈ df.filter (fun x => x.date < d) := by
      unfold getDataForDate at hout
      dsimp only at hout
      split at hout
      · exact absurd hout (by simp)
      · split at hout
        · rw [Except.ok.injEq] at hout
          exact List.drop_subset _ _ (hout ▸ hb)
        · rw [Except.ok.injEq] at hout
          exact hout ▸ hb
    simpa using (List.mem_filter.mp hmem).2
  · unfold getDataForDate
    dsimp only
    split
    · next h => exact ⟨fun _ => h, fun _ => ⟨_, rfl⟩⟩
    · next h =>
      constructor
      · rintro ⟨e, he⟩
        split at he <;> exact absurd he (by simp)
      · intro hlt
        exact absurd hlt h

/-- Witness for C1: a 50-bar cache dated 0..49 succeeds at target date 55 and
its first bar is indeed dated before 55, while an empty cache fails. -/
theorem getDataForDate_point_in_time_witness :
    ((⟨0, 1⟩ : Bar).date < 55) ∧ (∃ e, getDataForDate [] 55 180 = Except.error e) :=
  ⟨(getDataForDate_point_in_time ((List.range 50).map (fun i => ⟨(i : ℤ), 1⟩)) 55 180).1
      ((((List.range 50).map (fun i => (⟨(i : ℤ), 1⟩ : Bar))).filter (fun b => b.date < 55)))
      (by decide) ⟨0, 1⟩ (by decide),
   (getDataForDate_point_in_time [] 55 180).2.mpr (by decide)⟩

/-- One `execute_trade` call keeps cash and shares non-negative when the price
is positive. -/
theorem executeTrade_nonneg (p : Portfolio) (a : String) (price : ℚ)
    (hp : 0 < price) (hc : 0 ≤ p.cash) (hs : 0 ≤ p.shares) :
    0 ≤ (executeTrade p a price).cash ∧ 0 ≤ (executeTrade p a price).shares := by
  unfold executeTrade
  dsimp only
  split
  · next hbuy =>
    split
    · next hpos =>
      constructor
      · have h1 : (⌊p.cash / price⌋ : ℚ) ≤ p.cash / price := Int.floor_le _
        have h2 : (⌊p.cash / price⌋ : ℚ) * price ≤ p.cash / price * price :=
          mul_le_mul_of_nonneg_right h1 hp.le
        rw [div_mul_cancel₀ _ hp.ne'] at h2
        simpa using h2
      · have : (0 : ℤ) ≤ ⌊p.cash / price⌋ := hpos.le
        simp only
        omega
    · exact ⟨hc, hs⟩
  · split
    · next hsell =>
      refine ⟨?_, le_refl 0⟩
      have h1 : (0 : ℚ) ≤ (p.shares : ℚ) * price :=
        mul_nonneg (by exact_mod_cast hsell.2.le) hp.le
      simp only
      linarith
    · exact ⟨hc, hs⟩

/-- C2: for every starting portfolio with non-negative cash and shares and
every sequence of `execute_trade` calls at positive prices — the actions may
be BUY, SELL, HOLD or anything unrecognized — cash and shares stay
non-negative after every call. -/
theorem applyTrades_nonneg (p : Portfolio) (ts : List (String × ℚ))
    (hts : ∀ t ∈ ts, 0 < t.2) (hc : 0 ≤ p.cash) (hs : 0 ≤ p.shares) :
    0 ≤ (applyTrades p ts).cash ∧ 0 ≤ (applyTrades p ts).shares := by
  induction ts generalizing p with
  | nil => exact ⟨hc, hs⟩
  | cons t ts ih =>
    have hstep := executeTrade_nonneg p t.1 t.2 (hts t (List.mem_cons_self t ts)) hc hs
    have htail : ∀ u ∈ ts, 0 < u.2 := fun u hu => hts u (List.mem_cons_of_mem t hu)
    simpa [applyTrades] using ih (executeTrade p t.1 t.2) htail hstep.1 hstep.2

/-- Witness for C2: a BUY at 3, a SELL at 5 and an unrecognized action at 2,
starting from 10000 in cash, leave cash and shares non-negative. -/
theorem applyTrades_nonneg_witness :
    0 ≤ (applyTrades ⟨10000, 0, 10000⟩ [("BUY", 3), ("SELL", 5), ("FOO", 2)]).cash
    ∧ 0 ≤ (applyTrades ⟨10000, 0, 10000⟩ [("BUY", 3), ("SELL", 5), ("FOO", 2)]).shares :=
  applyTrades_nonneg ⟨10000, 0, 10000⟩ [("BUY", 3), ("SELL", 5), ("FOO", 2)]
    (by decide) (by norm_num) (by decide)

/-- C10: a single `execute_trade` call at a positive price never changes the
mark-to-market wealth `cash + shares * price`: a trade only converts between
cash and shares at the trade price. -/
theorem executeTrade_preserves_wealth (p : Portfolio) (a : String) (price : ℚ)
    (_hp : 0 < price) :
    (executeTrade p a price).cash + ((executeTrade p a price).shares : ℚ) * price
      = p.cash + (p.shares : ℚ) * price := by
  unfold executeTrade
  dsimp only
  split
  · split
    · push_cast
      ring
    · rfl
  · split
    · push_cast
      ring
    · rfl

/-- Witness for C10: buying at price 3 out of 100 cash with 2 shares held
keeps the mark-to-market wealth at 106. -/
theorem executeTrade_preserves_wealth_witness :
    (executeTrade ⟨100, 2, 0⟩ "BUY" 3).cash
        + ((executeTrade ⟨100, 2, 0⟩ "BUY" 3).shares : ℚ) * 3
      = (100 : ℚ) + (2 : ℤ) * 3 :=
  executeTrade_preserves_wealth ⟨100, 2, 0⟩ "BUY" 3 (by norm_num)

/-- Counterexample to C3: a crew result that is a non-JSON string mentioning
neither BUY nor SELL is malformed, yet `run_strategy_analysis` substitutes
`{action: HOLD, confidence: 0.5}` — not the `{action: HOLD, confidence: 0.0}`
the claim states. -/
theorem run_strategy_analysis_malformed_text_counterexample :
    run_strategy_analysis (Except.ok (CrewContent.strText false false))
      = ParsedRec.dict (some "HOLD") (some (1 / 2))
    ∧ extract_action_confidence
        (run_strategy_analysis (Except.ok (CrewContent.strText false false)))
      = ("HOLD", 1 / 2)
    ∧ (1 : ℚ) / 2 ≠ 0 :=
  ⟨rfl, rfl, by norm_num⟩

/-- C3 as amended: only a failing Advisor call is substituted with exactly
`{action: HOLD, confidence: 0.0}`; a malformed non-JSON result is replaced by
keyword extraction at confidence 0.5; a well-formed dict — even one with an
unrecognized action — passes through unchanged; in every case the weekly loop
receives an action/confidence pair and no error is propagated. -/
theorem run_strategy_analysis_fallback (e : String) (b s : Bool)
    (a : Option String) (c : Option ℚ) :
    extract_action_confidence (run_strategy_analysis (Except.error e)) = ("HOLD", 0)
    ∧ run_strategy_analysis (Except.error e) = ParsedRec.dict (some "HOLD") (some 0)
    ∧ run_strategy_analysis (Except.ok (CrewContent.strText b s))
        = ParsedRec.dict (some (if b then "BUY" else if s then "SELL" else "HOLD"))
            (some (1 / 2))
    ∧ run_strategy_analysis (Except.ok (CrewContent.otherObj b s))
        = ParsedRec.dict (some (if b then "BUY" else if s then "SELL" else "HOLD"))
            (some (1 / 2))
    ∧ run_strategy_analysis (Except.ok (CrewContent.dictContent a c)) = ParsedRec.dict a c :=
  ⟨rfl, rfl, rfl, rfl, rfl⟩

/-- Witness for the amended C3 at concrete inputs: a failing Advisor call is
replaced by HOLD at confidence 0. -/
theorem run_strategy_analysis_fallback_witness :
    extract_action_confidence (run_strategy_analysis (Except.error "crew failed")) = ("HOLD", 0) :=
  (run_strategy_analysis_fallback "crew failed" true false (some "FOO") (some 1)).1

/-- C4: the rule-based signal is BUY exactly when the score is at least 1.5,
SELL exactly when it is at most −1.5 and HOLD otherwise; on the threshold
function itself, a score of exactly 1.5 maps to BUY, exactly −1.5 to SELL and
1.49 to HOLD. -/
theorem generate_rule_based_signal_thresholds :
    (∀ ind : IndicatorSnapshot,
      ((generate_rule_based_signal ind).1 = "BUY" ↔ 3 / 2 ≤ ruleScore ind)
      ∧ ((generate_rule_based_signal ind).1 = "SELL" ↔ ruleScore ind ≤ -(3 / 2))
      ∧ ((generate_rule_based_signal ind).1 = "HOLD"
          ↔ -(3 / 2) < ruleScore ind ∧ ruleScore ind < 3 / 2))
    ∧ signalOfScore (3 / 2) = "BUY"
    ∧ signalOfScore (-(3 / 2)) = "SELL"
    ∧ signalOfScore (149 / 100) = "HOLD" := by
  refine ⟨fun ind => ?_, by norm_num [signalOfScore], by norm_num [signalOfScore],
    by norm_num [signalOfScore]⟩
  unfold generate_rule_based_signal signalOfScore
  dsimp only
  split
  · next h1 =>
    refine ⟨by simp [h1], ?_, ?_⟩
    · simp only [show ("BUY" : String) ≠ "SELL" from by decide, false_iff]
      intro hle
      linarith
    · simp only [show ("BUY" : String) ≠ "HOLD" from by decide, false_iff]
      intro hx
      linarith [hx.2]
  · next h1 =>
    split
    · next h2 =>
      refine ⟨?_, by simp [h2], ?_⟩
      · simp only [show ("SELL" : String) ≠ "BUY" from by decide, false_iff]
        exact h1
      · simp only [show ("SELL" : String) ≠ "HOLD" from by decide, false_iff]
        intro hx
        linarith [hx.1]
    · next h2 =>
      refine ⟨by simp [h1], by simp [h2], ?_⟩
      simp only [true_iff]
      constructor
      · exact lt_of_not_le h2
      · exact lt_of_not_le h1

/-- Counterexample to C5: the close series [1, 11, 11] has a single-day simple
return of exactly +1000% (the value 10.0); `compute_risk_metrics` keeps that
observation — the outlier test is strict — and the reported volatility
reflects it (its square is 50 · 252 = 12600, not 0). -/
theorem compute_risk_metrics_keeps_thousand_pct :
    compute_risk_metrics [1, 11, 11]
      = Except.ok { rets := [10, 0], volAnnualizedSq := 12600, nDays := 2 }
    ∧ (10 : ℚ) ∈ [(10 : ℚ), 0]
    ∧ (12600 : ℚ) ≠ 0 := by
  refine ⟨?_, by simp, by norm_num⟩
  norm_num [compute_risk_metrics, pctChange, sampleVariance, listMean]
  intro h
  exact absurd h (by simp)

/-- C5 as amended: `compute_risk_metrics` discards every return whose absolute
value is strictly greater than 10.0 before computing volatility and VaR — all
returns it retains have absolute value at most 10.0 — while a return of
exactly 10.0 (a +1000% day) is retained, as the counterexample shows. -/
theorem compute_risk_metrics_filters_extreme (closes : List ℚ) (out : RiskOut) (r : ℚ)
    (hok : compute_risk_metrics closes = Except.ok out) (hr : r ∈ out.rets) :
    |r| ≤ 10 := by
  unfold compute_risk_metrics at hok
  dsimp only at hok
  split at hok
  · exact absurd hok (by simp)
  · split at hok
    · exact absurd hok (by simp)
    · by_cases hany : ((pctChange closes).any fun x => decide (10 < |x|)) = true
      · rw [if_pos hany] at hok
        split at hok
        · exact absurd hok (by simp)
        · rw [Except.ok.injEq] at hok
          rw [← hok] at hr
          have := (List.mem_filter.mp hr).2
          simpa using this
      · rw [if_neg hany] at hok
        split at hok
        · exact absurd hok (by simp)
        · rw [Except.ok.injEq] at hok
          rw [← hok] at hr
          rw [List.any_eq_true] at hany
          push_neg at hany
          have := hany r hr
          simpa using this

/-- Witness for the amended C5: on the series [1, 20, 20] the +1900% return
is discarded and the surviving return 0 indeed has absolute value ≤ 10. -/
theorem compute_risk_metrics_filters_extreme_witness : |(0 : ℚ)| ≤ 10 :=
  compute_risk_metrics_filters_extreme [1, 20, 20]
    { rets := [0], volAnnualizedSq := 0, nDays := 1 } 0
    (by norm_num [compute_risk_metrics, pctChange, sampleVariance, listMean])
    (by simp)

/-- Simple returns of a constant series are all zero. -/
theorem pctChange_replicate (n : ℕ) (c : ℚ) :
    pctChange (List.replicate (n + 1) c) = List.replicate n 0 := by
  induction n with
  | zero => simp [pctChange]
  | succ m ih =>
    have h1 : List.replicate (m + 1 + 1) c = c :: c :: List.replicate m c := by
      simp [List.replicate_succ]
    rw [h1]
    have h2 : pctChange (c :: c :: List.replicate m c)
        = (c - c) / c :: pctChange (c :: List.replicate m c) := rfl
    rw [h2]
    have h3 : (c :: List.replicate m c) = List.replicate (m + 1) c := by
      simp [List.replicate_succ]
    rw [h3, ih]
    simp [List.replicate_succ]

/-- The sample variance of a constant-zero list is zero. -/
theorem sampleVariance_replicate_zero (m : ℕ) :
    sampleVariance (List.replicate m (0 : ℚ)) = 0 := by
  simp [sampleVariance, listMean, List.map_replicate, List.sum_replicate]

/-- C6: on a constant close series of at least 3 bars (all simple returns
zero; the constant is a price, hence nonzero), `compute_risk_metrics` does
not fail and reports an annualized volatility of 0 — its square, carried by
the model, is 0 — over the n−1 zero returns. -/
theorem compute_risk_metrics_constant (n : ℕ) (c : ℚ) (hn : 3 ≤ n) (_hc : c ≠ 0) :
    compute_risk_metrics (List.replicate n c)
      = Except.ok { rets := List.replicate (n - 1) 0, volAnnualizedSq := 0, nDays := n - 1 } := by
  obtain ⟨m, rfl⟩ : ∃ m, n = m + 1 := ⟨n - 1, by omega⟩
  have hlen1 : ¬((List.replicate (m + 1) c).length < 2) := by
    rw [List.length_replicate]
    omega
  have hlen2 : ¬((List.replicate m (0 : ℚ)).length < 2) := by
    rw [List.length_replicate]
    omega
  have hany : ¬(((List.replicate m (0 : ℚ)).any fun r => decide (10 < |r|)) = true) := by
    rw [List.any_eq_true]
    rintro ⟨x, hx, hdec⟩
    rw [List.eq_of_mem_replicate hx] at hdec
    simp at hdec
    exact absurd hdec (by norm_num)
  have hne : ¬(List.replicate m (0 : ℚ) = []) := by
    intro h
    have hl := congrArg List.length h
    rw [List.length_replicate] at hl
    simp at hl
    omega
  unfold compute_risk_metrics
  dsimp only
  rw [pctChange_replicate m c]
  rw [if_neg hlen1, if_neg hlen2, if_neg hany, if_neg hne]
  rw [sampleVariance_replicate_zero m]
  simp

/-- Witness for C6: the constant series [5, 5, 5] yields two zero returns and
zero annualized volatility. -/
theorem compute_risk_metrics_constant_witness :
    compute_risk_metrics (List.replicate 3 (5 : ℚ))
      = Except.ok { rets := List.replicate 2 0, volAnnualizedSq := 0, nDays := 2 } :=
  compute_risk_metrics_constant 3 5 (by norm_num) (by norm_num)

/-- The last element of a cons list with nonempty tail ignores the head. -/
theorem lastD_cons_of_ne_nil (x : ℚ) (l : List ℚ) (h : l ≠ []) :
    lastD (x :: l) = lastD l := by
  cases l with
  | nil => exact absurd rfl h
  | cons y ys => simp [lastD, List.getLastD_cons]

/-- The second-to-last element of a list of length at least 3 ignores the
head. -/
theorem penultD_cons_of_ne_nil (x y : ℚ) (l : List ℚ) (h : l ≠ []) :
    penultD (x :: y :: l) = penultD (y :: l) := by
  unfold penultD
  rw [List.dropLast_cons₂]
  apply lastD_cons_of_ne_nil
  cases l with
  | nil => exact absurd rfl h
  | cons z zs => simp [List.dropLast_cons₂]

/-- `ewmFrom` produces one output per input. -/
theorem ewmFrom_length (a : ℚ) (vs : List ℚ) (y : ℚ) :
    (ewmFrom a y vs).length = vs.length := by
  induction vs generalizing y with
  | nil => rfl
  | cons v vs ih => simp [ewmFrom, ih]

/-- The EMA series has the length of its input. -/
theorem ema_length (a : ℚ) (l : List ℚ) : (ema a l).length = l.length := by
  cases l with
  | nil => rfl
  | cons x rest => simp [ema, ewmFrom_length]

/-- `ewmFrom` of a nonempty input is nonempty. -/
theorem ewmFrom_ne_nil (a y : ℚ) (v : ℚ) (vs : List ℚ) :
    ewmFrom a y (v :: vs) ≠ [] := by
  simp [ewmFrom]

/-- The defining recurrence of the exponentially weighted mean, read off at
the last position: the last output is `a` times the last input plus `1 − a`
times the output one step earlier (the seed when there is only one input). -/
theorem ewmFrom_lastD (a : ℚ) :
    ∀ vs : List ℚ, vs ≠ [] → ∀ y : ℚ,
      lastD (ewmFrom a y vs) = a * lastD vs + (1 - a) * penultD (y :: ewmFrom a y vs)
  | [], h => absurd rfl h
  | [v], _ => by
    intro y
    simp [ewmFrom, lastD, penultD, List.getLastD]
  | v :: w :: vs, _ => by
    intro y
    have ih := ewmFrom_lastD a (w :: vs) (by simp) (a * v + (1 - a) * y)
    rw [show ewmFrom a y (v :: w :: vs)
        = (a * v + (1 - a) * y) :: ewmFrom a (a * v + (1 - a) * y) (w :: vs) from rfl]
    rw [lastD_cons_of_ne_nil _ _ (ewmFrom_ne_nil a _ w vs)]
    rw [ih]
    rw [lastD_cons_of_ne_nil v (w :: vs) (by simp)]
    rw [penultD_cons_of_ne_nil y _ _ (ewmFrom_ne_nil a _ w vs)]

/-- The EMA recurrence at the last position of a series of length at least
two: last output = a · last input + (1 − a) · second-to-last output. -/
theorem ema_lastD (a : ℚ) (l : List ℚ) (h2 : 2 ≤ l.length) :
    lastD (ema a l) = a * lastD l + (1 - a) * penultD (ema a l) := by
  match l, h2 with
  | x :: y :: rest, _ =>
    rw [show ema a (x :: y :: rest) = x :: ewmFrom a x (y :: rest) from rfl]
    rw [lastD_cons_of_ne_nil x _ (ewmFrom_ne_nil a x y rest)]
    rw [ewmFrom_lastD a (y :: rest) (by simp) x]
    rw [lastD_cons_of_ne_nil x (y :: rest) (by simp)]

/-- The MACD line has one value per input bar. -/
theorem macdLine_length (closes : List ℚ) : (macdLine closes).length = closes.length := by
  simp [macdLine, emaSpan, ema_length]

/-- C7: on a series of at least two bars the bearish MACD cross event —
written in the source as a comparison of the latest MACD against the
*previous* bar's signal value — fires exactly when the previous bar's MACD is
above the previous bar's signal line and the latest bar's MACD is below the
latest bar's signal line.  The equivalence holds because the latest signal
value is the convex combination `(1/5)·latest MACD + (4/5)·previous signal`
of exactly those two quantities. -/
theorem bearishMACDCrossEvent_iff (closes : List ℚ) (h2 : 2 ≤ closes.length) :
    bearishMACDCrossEvent closes = true
      ↔ (penultD (macdSignalLine closes) < penultD (macdLine closes)
          ∧ lastD (macdLine closes) < lastD (macdSignalLine closes)) := by
  have hlen : 2 ≤ (macdLine closes).length := by
    rw [macdLine_length]
    exact h2
  have hs := ema_lastD (2 / (((9 : ℕ) : ℚ) + 1)) (macdLine closes) hlen
  rw [show ema (2 / (((9 : ℕ) : ℚ) + 1)) (macdLine closes) = macdSignalLine closes
      from rfl] at hs
  norm_num at hs
  rw [bearishMACDCrossEvent, decide_eq_true_eq]
  constructor
  · rintro ⟨hp, hl⟩
    exact ⟨hp, by linarith⟩
  · rintro ⟨hp, hl⟩
    exact ⟨hp, by linarith⟩

/-- Witness for C7: on the closes [10, 12, 1] the MACD sat above its signal
on the middle bar and fell below it on the last bar, and the event fires. -/
theorem bearishMACDCrossEvent_iff_witness :
    penultD (macdSignalLine [10, 12, 1]) < penultD (macdLine [10, 12, 1])
    ∧ lastD (macdLine [10, 12, 1]) < lastD (macdSignalLine [10, 12, 1]) :=
  (bearishMACDCrossEvent_iff [10, 12, 1] (by decide)).mp (by
    norm_num [bearishMACDCrossEvent, macdLine, macdSignalLine, emaSpan, ema, ewmFrom,
      lastD, penultD, List.getLastD])

/-- A HOLD action only refreshes the mark-to-market `total_value`. -/
theorem executeTrade_hold (p : Portfolio) (price : ℚ) :
    executeTrade p "HOLD" price
      = { p with totalValue := p.cash + (p.shares : ℚ) * price } := by
  unfold executeTrade
  have h1 : ¬(("HOLD" : String) = "BUY" ∧ 0 < p.cash) := by
    rintro ⟨h, -⟩
    exact absurd h (by decide)
  have h2 : ¬(("HOLD" : String) = "SELL" ∧ 0 < p.shares) := by
    rintro ⟨h, -⟩
    exact absurd h (by decide)
  rw [if_neg h1, if_neg h2]

/-- Counterexample to C8: on a cached series holding one bar (close 100)
dated 26 weeks before the simulated window and two bars (both close 200)
inside the simulated window, with an advisor that always holds, the code
reports a buy-and-hold return of 100% — the purchase happens at the close
100 of the *fetched* window's first bar — while a purchase at the first
available close of the *simulated* window (200) would return 0%; the
reported alpha is −100 instead of the 0 the claim implies. -/
theorem run_backtest_benchmark_window_counterexample :
    (run_backtest [⟨0, 100⟩, ⟨182, 200⟩, ⟨189, 200⟩] 196 2 10000
        (fun _ => ("HOLD", 0))).buyHoldReturnPct = 100
    ∧ (run_backtest [⟨0, 100⟩, ⟨182, 200⟩, ⟨189, 200⟩] 196 2 10000
        (fun _ => ("HOLD", 0))).totalReturnPct = 0
    ∧ (run_backtest [⟨0, 100⟩, ⟨182, 200⟩, ⟨189, 200⟩] 196 2 10000
        (fun _ => ("HOLD", 0))).strategyVsBuyHold = -100
    ∧ specSimWindowBuyHoldReturnPct [⟨0, 100⟩, ⟨182, 200⟩, ⟨189, 200⟩] 196 2 10000 = 0
    ∧ (100 : ℚ) ≠ 0 := by
  refine ⟨?_, ?_, ?_, ?_, by norm_num⟩ <;>
    norm_num [run_backtest, fetchedWindow, backtestLoop, executeTrade_hold,
      specSimWindowBuyHoldReturnPct, lastD, List.getLastD, List.getLast?, List.filter]

/-- C8 as amended: the buy-and-hold benchmark is the return of an all-in
purchase at the first available close of the *fetched data window* — the
cached series, which begins 26 weeks before the simulated window — held to
its last available close, so it equals (last close / first close − 1) · 100;
the reported alpha is the strategy's total return minus that benchmark
return. -/
theorem run_backtest_benchmark (allBars : List Bar) (endDate : ℤ) (weeks : ℕ)
    (cap : ℚ) (advisor : ℤ → String × ℚ) (hcap : cap ≠ 0)
    (_hne : fetchedWindow allBars endDate weeks ≠ []) :
    (run_backtest allBars endDate weeks cap advisor).buyHoldReturnPct
      = (lastD ((fetchedWindow allBars endDate weeks).map Bar.close)
          / ((fetchedWindow allBars endDate weeks).map Bar.close).headD 0 - 1) * 100
    ∧ (run_backtest allBars endDate weeks cap advisor).strategyVsBuyHold
      = (run_backtest allBars endDate weeks cap advisor).totalReturnPct
        - (run_backtest allBars endDate weeks cap advisor).buyHoldReturnPct := by
  constructor
  · unfold run_backtest
    dsimp only
    by_cases h0 : ((fetchedWindow allBars endDate weeks).map Bar.close).headD 0 = 0
    · rw [h0, div_zero, div_zero, zero_mul, zero_sub, neg_div, div_self hcap]
      ring
    · field_simp
      ring
  · rfl

/-- Witness for the amended C8: a one-bar series at close 100 with a holding
advisor gives a 0% benchmark equal to (100/100 − 1) · 100, and the alpha
identity holds. -/
theorem run_backtest_benchmark_witness :
    (run_backtest [⟨0, 100⟩] 7 1 10000 (fun _ => ("HOLD", 0))).buyHoldReturnPct
      = (lastD ((fetchedWindow [⟨0, 100⟩] 7 1).map Bar.close)
          / ((fetchedWindow [⟨0, 100⟩] 7 1).map Bar.close).headD 0 - 1) * 100
    ∧ (run_backtest [⟨0, 100⟩] 7 1 10000 (fun _ => ("HOLD", 0))).strategyVsBuyHold
      = (run_backtest [⟨0, 100⟩] 7 1 10000 (fun _ => ("HOLD", 0))).totalReturnPct
        - (run_backtest [⟨0, 100⟩] 7 1 10000 (fun _ => ("HOLD", 0))).buyHoldReturnPct :=
  run_backtest_benchmark [⟨0, 100⟩] 7 1 10000 (fun _ => ("HOLD", 0))
    (by norm_num) (by decide)

/-- Counterexample to C9: a two-row table whose rows carry the same date
loads successfully — both rows are kept in order — instead of failing with a
data-format error. -/
theorem read_prices_process_duplicate_dates_counterexample :
    read_prices_process [⟨some 1, 10⟩, ⟨some 1, 20⟩] true
      = Except.ok [(1, 10), (1, 20)] := by
  decide

/-- C9 as amended: price loading neither rejects nor deduplicates duplicate
dates — on any nonempty table with all required columns and at least one
parsable date it succeeds, returning exactly the date-valid rows stably
sorted by date, preserving the length and the multiplicity of every row,
duplicated dates included. -/
theorem read_prices_process_keeps_duplicates (rows : List RawRow)
    (hrows : rows ≠ []) (hvalid : validRows rows ≠ []) :
    read_prices_process rows true = Except.ok (sortByDate (validRows rows))
    ∧ (sortByDate (validRows rows)).length = (validRows rows).length
    ∧ List.Perm (sortByDate (validRows rows)) (validRows rows) := by
  have hsorted : sortByDate (validRows rows) ≠ [] := by
    intro h
    have hl := congrArg List.length h
    rw [sortByDate, List.length_insertionSort] at hl
    simp only [List.length_nil] at hl
    exact hvalid (List.eq_nil_of_length_eq_zero hl)
  refine ⟨?_, ?_, ?_⟩
  · unfold read_prices_process
    rw [if_neg hrows]
    dsimp only
    rw [if_neg hsorted, if_pos rfl]
  · rw [sortByDate, List.length_insertionSort]
  · rw [sortByDate]
    exact List.perm_insertionSort (fun a b => a.1 ≤ b.1) (validRows rows)

/-- Witness for the amended C9: two rows dated the same day both survive the
load. -/
theorem read_prices_process_keeps_duplicates_witness :
    read_prices_process [⟨some 3, 7⟩, ⟨some 3, 8⟩] true
      = Except.ok (sortByDate (validRows [⟨some 3, 7⟩, ⟨some 3, 8⟩])) :=
  (read_prices_process_keeps_duplicates [⟨some 3, 7⟩, ⟨some 3, 8⟩]
    (by decide) (by decide)).1

end AIFA
